import Mathlib

/-!
Shallow embedding of the DIP-721 NFT registry canister
(src/nft-mint-activity/src/lib.rs) and verification of its
specification.

Modelling conventions:
- `Principal` values are opaque identities; we model them as `Nat` and
  reserve `0` for the sentinel principal `MGMT`
  (`Principal::from_slice(&[])`).
- `HashSet<Principal>` becomes `List Nat` with membership semantics;
  `HashMap` becomes an association list.
- The `u128` transaction counter is modelled as an unbounded `Nat`: it
  advances by one per successful call, so `u128` overflow is unreachable.
- Each canister update runs against the global `STATE`; we model this by
  explicit state passing: an operation takes the pre-state and returns
  the result paired with the post-state. `api::caller()` is passed as an
  explicit `caller` argument.
- External crates are passed as parameters where their output matters:
  `uriValid` stands for `URI::try_from(&*uri).is_ok()` (uriparse crate),
  `sha256` for `Sha256::digest` (sha2 crate) on a byte list, and `now`
  for `Utc::now().timestamp_millis()` (chrono crate).
- `token_id` is a `u64` converted with `usize::try_from`; both a failed
  conversion and an out-of-bounds index produce `InvalidTokenId`, so
  list indexing with `Nat` captures the behaviour exactly.
- The success path of `simple_mint` is modelled as a trap
  (`MintCallResult.trap`): the source still holds lifetime-extended
  `Ref` borrows of the `STATE` RefCell when it calls `mint`, whose
  `borrow_mut` therefore panics before any mutation (see the doc
  comment on `simple_mint`).
-/

namespace NftLedger

/-- The sentinel identity (`MGMT`, the management canister principal,
`Principal::from_slice(&[])`): marks burned tokens and is rejected as a
`safeTransferFrom` target. Modelled as the reserved identity `0`. -/
def MGMT : Nat := 0

/-- Ledger error kinds (`enum Error` in the source). `Other` is the
distinct error returned by `transfer_from` on an ownership mismatch. -/
inductive Error where
  | Unauthorized
  | InvalidTokenId
  | ZeroAddress
  | Other
deriving DecidableEq

/-- Public-mint error kinds (`enum ConstrainedError` in the source). -/
inductive ConstrainedError where
  | Unauthorized
  | TimeError
deriving DecidableEq

/-- Typed metadata values (`enum MetadataVal`). Byte blobs are lists of
byte values; the fixed-width numeric variants keep their tags. -/
inductive MetadataVal where
  | TextContent (s : String)
  | BlobContent (b : List Nat)
  | NatContent (n : Nat)
  | Nat8Content (n : Nat)
  | Nat16Content (n : Nat)
  | Nat32Content (n : Nat)
  | Nat64Content (n : Nat)
deriving DecidableEq

/-- Metadata purpose tag (`enum MetadataPurpose`). -/
inductive MetadataPurpose where
  | Preview
  | Rendered
deriving DecidableEq

/-- One metadata part (`struct MetadataPart`). The source keeps
`key_val_data` in a `HashMap<String, MetadataVal>`; we model it as an
association list (the keys written by the mint paths are distinct). -/
structure MetadataPart where
  purpose : MetadataPurpose
  key_val_data : List (String × MetadataVal)
  data : List Nat
deriving DecidableEq

/-- One token (`struct Nft`). -/
structure Nft where
  owner : Nat
  approved : Option Nat
  id : Nat
  metadata : List MetadataPart
  content : List Nat
deriving DecidableEq

/-- Result of a mint (`struct MintResult`): `id` is the transaction id,
`token_id` the newly assigned token id. -/
structure MintResult where
  token_id : Nat
  id : Nat
deriving DecidableEq

/-- Lookup in an association list keyed by identity, modelling
`HashMap::get` on the `operators` map. -/
def lookupOps : List (Nat × List Nat) → Nat → Option (List Nat)
  | [], _ => none
  | (k, v) :: rest, key => if k = key then some v else lookupOps rest key

/-- Overwriting update of an association list, modelling
`HashMap::entry(key).or_default()` followed by in-place mutation of the
entry to the value `v`. -/
def setOps : List (Nat × List Nat) → Nat → List Nat → List (Nat × List Nat)
  | [], key, v => [(key, v)]
  | (k, w) :: rest, key, v =>
    if k = key then (key, v) :: rest else (k, w) :: setOps rest key v

/-- `HashSet::insert` on an identity set. -/
def insertSet (s : List Nat) (x : Nat) : List Nat :=
  if s.contains x then s else x :: s

/-- `HashSet::remove` on an identity set. -/
def removeSet (s : List Nat) (x : Nat) : List Nat :=
  s.filter (fun y => y != x)

/-- The operator test used by `transfer_from` and `approve`:
`state.operators.get(&subj).map(|s| s.contains(&caller)).unwrap_or(false)`. -/
def operatorsContain (ops : List (Nat × List Nat)) (subj caller : Nat) : Bool :=
  ((lookupOps ops subj).map (fun s => s.contains caller)).getD false

/-- The registry state (`struct State`). The `begin_date` and `end_date`
fields are fixed-format timestamp strings in the source, validated at
`init` and re-parsed with chrono on every `simple_mint` call; since they
always parse, we model the already-parsed millisecond values as `Int`.
`logo` keeps the `(logo_type, data)` pair of `LogoResult`. -/
structure State where
  nfts : List Nft
  custodians : List Nat
  operators : List (Nat × List Nat)
  logo : Option (String × String)
  name : String
  symbol : String
  txid : Nat
  white_list : List Nat
  begin_date : Int
  end_date : Int
  total_limit : String
deriving DecidableEq

/-- `State::next_txid`: returns the current counter value and increments
the counter (the returned txid is the pre-advance value). -/
def State.next_txid (st : State) : Nat × State :=
  (st.txid, { st with txid := st.txid + 1 })

/-- `transfer_from` (update method `transferFromDip721`). -/
def transfer_from (st : State) (caller fromP toP : Nat) (token_id : Nat) :
    Except Error Nat × State :=
  match st.nfts[token_id]? with
  | none => (Except.error Error.InvalidTokenId, st)
  | some nft =>
    if (nft.owner != caller) && (nft.approved != some caller)
        && !(operatorsContain st.operators fromP caller)
        && !(st.custodians.contains caller) then
      (Except.error Error.Unauthorized, st)
    else if nft.owner != fromP then
      (Except.error Error.Other, st)
    else
      let st1 :=
        { st with
            nfts := st.nfts.set token_id { nft with approved := none, owner := toP } }
      let (txid, st2) := st1.next_txid
      (Except.ok txid, st2)

/-- `safe_transfer_from` (update method `safeTransferFromDip721`). -/
def safe_transfer_from (st : State) (caller fromP toP : Nat) (token_id : Nat) :
    Except Error Nat × State :=
  if toP == MGMT then (Except.error Error.ZeroAddress, st)
  else transfer_from st caller fromP toP token_id

/-- `approve` (update method `approveDip721`): note that the operator
lookup is keyed by the caller-supplied `user` (the delegate), mirroring
`transfer_from` keying it by `from`. -/
def approve (st : State) (caller user : Nat) (token_id : Nat) :
    Except Error Nat × State :=
  match st.nfts[token_id]? with
  | none => (Except.error Error.InvalidTokenId, st)
  | some nft =>
    if (nft.owner != caller) && (nft.approved != some caller)
        && !(operatorsContain st.operators user caller)
        && !(st.custodians.contains caller) then
      (Except.error Error.Unauthorized, st)
    else
      let st1 :=
        { st with nfts := st.nfts.set token_id { nft with approved := some user } }
      let (txid, st2) := st1.next_txid
      (Except.ok txid, st2)

/-- `set_approval_for_all` (update method `setApprovalForAllDip721`).
When `operator != caller` the source materialises the caller's entry
with `entry(caller).or_default()` and then clears / inserts / removes;
`setOps` writes the updated entry back. -/
def set_approval_for_all (st : State) (caller operator : Nat) (is_approved : Bool) :
    Except Error Nat × State :=
  if operator != caller then
    let ops := (lookupOps st.operators caller).getD []
    let ops1 :=
      if operator == MGMT then
        if !is_approved then [] else ops
      else
        if is_approved then insertSet ops operator else removeSet ops operator
    let st1 := { st with operators := setOps st.operators caller ops1 }
    let (txid, st2) := st1.next_txid
    (Except.ok txid, st2)
  else
    let (txid, st2) := st.next_txid
    (Except.ok txid, st2)

/-- `burn` (update method `burnDip721`): strictly owner-only; sets the
owner to the sentinel and does not touch `approved`. -/
def burn (st : State) (caller : Nat) (token_id : Nat) :
    Except Error Nat × State :=
  match st.nfts[token_id]? with
  | none => (Except.error Error.InvalidTokenId, st)
  | some nft =>
    if nft.owner != caller then
      (Except.error Error.Unauthorized, st)
    else
      let st1 := { st with nfts := st.nfts.set token_id { nft with owner := MGMT } }
      let (txid, st2) := st1.next_txid
      (Except.ok txid, st2)

/-- Modelled from the spec: the content-hash index kept by the `http`
module (the file `src/nft-mint-activity/src/http.rs` is not among the
provided sources; only the call `http::add_hash(tkid)` is). Spec 4.4
describes it as an append-only mapping from token id to a digest,
written exactly once per successful mint, with the exact hashed payload
out of scope; the digest is therefore abstracted as a function `digest`
of the token id. -/
def add_hash (digest : Nat → List Nat) (hashes : List (Nat × List Nat))
    (tkid : Nat) : List (Nat × List Nat) :=
  (tkid, digest tkid) :: hashes

/-- The full system state: the registry `State` plus the content-hash
index (kept in a separate `thread_local` by the `http` module). -/
structure Sys where
  state : State
  hashes : List (Nat × List Nat)
deriving DecidableEq

/-- `mint` (update method `mintDip721`). The source wraps the result in
`Result<MintResult, ConstrainedError>` but the closure always returns
`Ok` (the custodian check is commented out: everyone can mint), so we
return the `MintResult` directly. Appends the token, allocates a txid,
and records a content-hash entry for the new id. -/
def mint (digest : Nat → List Nat) (sys : Sys) (toP : Nat)
    (metadata : List MetadataPart) (blob_content : List Nat) :
    MintResult × Sys :=
  let new_id := sys.state.nfts.length
  let nft : Nft :=
    { owner := toP, approved := none, id := new_id,
      metadata := metadata, content := blob_content }
  let st1 := { sys.state with nfts := sys.state.nfts ++ [nft] }
  let (txid, st2) := st1.next_txid
  ({ id := txid, token_id := new_id },
   { state := st2, hashes := add_hash digest sys.hashes new_id })

/-- UTF-8 bytes of a string (`String::into_bytes` in the source). -/
def strBytes (s : String) : List Nat :=
  s.toUTF8.toList.map (fun b => b.toNat)

deriving instance DecidableEq for Except

/-- Outcome of a `simple_mint` call: either a returned
`Result<MintResult, ConstrainedError>` value, or `trap` — the call
panics and the canister call traps (see `simple_mint`). -/
inductive MintCallResult where
  | ret (r : Except ConstrainedError MintResult)
  | trap
deriving DecidableEq

/-- `simple_mint` (update method `simpleMintDip721`). Checks, in source
order: non-empty `uri`; syntactically valid `uri` (else `Unauthorized`);
current time inside `[begin_date, end_date]` (else `TimeError`);
recipient in the whitelist (else `Unauthorized`). When every check
passes the source calls `mint` — but at that point the
`begin_date`/`end_date`/`white_list` bindings still hold shared `Ref`
borrows of the `STATE` RefCell (the `state.borrow()` temporaries in
their initializers are lifetime-extended to the end of the `STATE.with`
block), so the `state.borrow_mut()` at the top of `mint` panics with a
`BorrowMutError`: the call traps and no token is ever minted on this
path. The trap is modelled by `MintCallResult.trap` with the state
unchanged — the panic fires before any mutation, and a trapped canister
call rolls back. The synthesized metadata, whose `contentHash` is the
digest of the UTF-8 bytes of the URI string, is built but never
stored. -/
def simple_mint (uriValid : String → Bool) (sha256 : List Nat → List Nat)
    (_digest : Nat → List Nat) (now : Int) (sys : Sys) (toP : Nat)
    (uri mime_type nm origin : String) :
    MintCallResult × Sys :=
  if 0 < uri.length then
    if !(uriValid uri) then
      (MintCallResult.ret (Except.error ConstrainedError.Unauthorized), sys)
    else
      let metadata : List (String × MetadataVal) :=
        [("locationType", MetadataVal.Nat8Content 3),
         ("location", MetadataVal.TextContent uri),
         ("contentHash", MetadataVal.BlobContent (sha256 (strBytes uri))),
         ("contentType", MetadataVal.TextContent mime_type),
         ("name", MetadataVal.TextContent nm),
         ("origin", MetadataVal.TextContent origin)]
      let _part : MetadataPart :=
        { purpose := MetadataPurpose.Rendered, data := [], key_val_data := metadata }
      if now < sys.state.begin_date || now > sys.state.end_date then
        (MintCallResult.ret (Except.error ConstrainedError.TimeError), sys)
      else if !(sys.state.white_list.contains toP) then
        (MintCallResult.ret (Except.error ConstrainedError.Unauthorized), sys)
      else
        (MintCallResult.trap, sys)
  else (MintCallResult.ret (Except.error ConstrainedError.Unauthorized), sys)

/-- AccessControl (spec section 4.2), as a Boolean predicate: caller `c`
is authorized with respect to subject `subj` iff `c` is the token's
current owner, its approved delegate, a registered operator of `subj`,
or a custodian. -/
def authorizedB (st : State) (nft : Nft) (subj c : Nat) : Bool :=
  (nft.owner == c) || (nft.approved == some c)
    || operatorsContain st.operators subj c || st.custodians.contains c

/-- The state-mutating operations, for trace-level statements. Queries
never mutate and are omitted. `simpleMintOp` carries the wall-clock time
observed by the call. -/
inductive Op where
  | transferOp (caller fromP toP token_id : Nat)
  | safeTransferOp (caller fromP toP token_id : Nat)
  | approveOp (caller user token_id : Nat)
  | setApprovalOp (caller operator : Nat) (is_approved : Bool)
  | burnOp (caller token_id : Nat)
  | mintOp (toP : Nat) (metadata : List MetadataPart) (content : List Nat)
  | simpleMintOp (now : Int) (toP : Nat) (uri mime_type nm origin : String)

/-- Lift a registry-level outcome to the full system (the content-hash
index is untouched by the non-mint operations). -/
def liftSt (sys : Sys) (p : Except Error Nat × State) : Option Nat × Sys :=
  (p.1.toOption, { sys with state := p.2 })

/-- One operation applied to the full system state; returns the txid on
success (`none` on failure) together with the post-state. For mints the
returned txid is the `id` field of the `MintResult`. -/
def step (uriValid : String → Bool) (sha256 : List Nat → List Nat)
    (digest : Nat → List Nat) (sys : Sys) : Op → Option Nat × Sys
  | Op.transferOp c f t i => liftSt sys (transfer_from sys.state c f t i)
  | Op.safeTransferOp c f t i => liftSt sys (safe_transfer_from sys.state c f t i)
  | Op.approveOp c u i => liftSt sys (approve sys.state c u i)
  | Op.setApprovalOp c o b => liftSt sys (set_approval_for_all sys.state c o b)
  | Op.burnOp c i => liftSt sys (burn sys.state c i)
  | Op.mintOp t md ct =>
    let (r, sys1) := mint digest sys t md ct
    (some r.id, sys1)
  | Op.simpleMintOp now t uri mt nm og =>
    let p := simple_mint uriValid sha256 digest now sys t uri mt nm og
    ((match p.1 with
      | MintCallResult.ret r => r.toOption.map (fun m => m.id)
      | MintCallResult.trap => none), p.2)

/-- Run a list of operations, collecting the txids of the successful
ones in order. -/
def run (uriValid : String → Bool) (sha256 : List Nat → List Nat)
    (digest : Nat → List Nat) :
    Sys → List Op → List Nat × Sys
  | sys, [] => ([], sys)
  | sys, op :: ops =>
    let r := step uriValid sha256 digest sys op
    let rest := run uriValid sha256 digest r.2 ops
    ((match r.1 with | some t => t :: rest.1 | none => rest.1), rest.2)

-- ----------------------------------------------------------------
-- Helper lemmas
-- ----------------------------------------------------------------

/-- The negated four-way guard used verbatim by `transfer_from` and
`approve` is the negation of the AccessControl predicate. -/
theorem srcCond_eq_not_auth (st : State) (nft : Nft) (subj c : Nat) :
    ((nft.owner != c) && (nft.approved != some c)
      && !(operatorsContain st.operators subj c)
      && !(st.custodians.contains c))
    = !(authorizedB st nft subj c) := by
  simp only [authorizedB, bne]
  cases nft.owner == c <;> cases nft.approved == some c <;>
    cases operatorsContain st.operators subj c <;>
    cases st.custodians.contains c <;> rfl

/-- Decomposition of a failed AccessControl check. -/
theorem authorizedB_false_iff (st : State) (nft : Nft) (subj c : Nat) :
    authorizedB st nft subj c = false ↔
      ¬nft.owner = c ∧ ¬nft.approved = some c
        ∧ operatorsContain st.operators subj c = false
        ∧ c ∉ st.custodians := by
  simp [authorizedB, not_or, and_assoc]

/-- Decomposition of a passed AccessControl check. -/
theorem authorizedB_true_iff (st : State) (nft : Nft) (subj c : Nat) :
    authorizedB st nft subj c = true ↔
      nft.owner = c ∨ nft.approved = some c
        ∨ operatorsContain st.operators subj c = true
        ∨ c ∈ st.custodians := by
  simp [authorizedB, or_assoc]

theorem transfer_from_invalid (st : State) (c f t i : Nat)
    (h : st.nfts[i]? = none) :
    transfer_from st c f t i = (Except.error Error.InvalidTokenId, st) := by
  simp [transfer_from, h]

theorem transfer_from_unauthorized (st : State) (c f t i : Nat) (nft : Nft)
    (h : st.nfts[i]? = some nft) (ha : authorizedB st nft f c = false) :
    transfer_from st c f t i = (Except.error Error.Unauthorized, st) := by
  rcases (authorizedB_false_iff st nft f c).mp ha with ⟨h1, h2, h3, h4⟩
  simp [transfer_from, h, h1, h2, h3, h4]

theorem transfer_from_mismatch (st : State) (c f t i : Nat) (nft : Nft)
    (h : st.nfts[i]? = some nft) (ha : authorizedB st nft f c = true)
    (ho : nft.owner ≠ f) :
    transfer_from st c f t i = (Except.error Error.Other, st) := by
  have hd := (authorizedB_true_iff st nft f c).mp ha
  simp [transfer_from, h, ho]
  intro h1 h2 h3
  rcases hd with hd | hd | hd | hd <;> simp_all

theorem transfer_from_ok (st : State) (c f t i : Nat) (nft : Nft)
    (h : st.nfts[i]? = some nft) (ha : authorizedB st nft f c = true)
    (ho : nft.owner = f) :
    transfer_from st c f t i =
      (Except.ok st.txid,
       { st with
           nfts := st.nfts.set i { nft with approved := none, owner := t },
           txid := st.txid + 1 }) := by
  have hd := (authorizedB_true_iff st nft f c).mp ha
  simp [transfer_from, h, ho, State.next_txid]
  intro h1 h2 h3
  rcases hd with hd | hd | hd | hd <;> simp_all

theorem approve_invalid (st : State) (c u i : Nat)
    (h : st.nfts[i]? = none) :
    approve st c u i = (Except.error Error.InvalidTokenId, st) := by
  simp [approve, h]

theorem approve_unauthorized (st : State) (c u i : Nat) (nft : Nft)
    (h : st.nfts[i]? = some nft) (ha : authorizedB st nft u c = false) :
    approve st c u i = (Except.error Error.Unauthorized, st) := by
  rcases (authorizedB_false_iff st nft u c).mp ha with ⟨h1, h2, h3, h4⟩
  simp [approve, h, h1, h2, h3, h4]

theorem approve_ok (st : State) (c u i : Nat) (nft : Nft)
    (h : st.nfts[i]? = some nft) (ha : authorizedB st nft u c = true) :
    approve st c u i =
      (Except.ok st.txid,
       { st with nfts := st.nfts.set i { nft with approved := some u },
                 txid := st.txid + 1 }) := by
  have hd := (authorizedB_true_iff st nft u c).mp ha
  simp [approve, h, State.next_txid]
  intro h1 h2 h3
  rcases hd with hd | hd | hd | hd <;> simp_all

theorem burn_invalid (st : State) (c i : Nat) (h : st.nfts[i]? = none) :
    burn st c i = (Except.error Error.InvalidTokenId, st) := by
  simp [burn, h]

theorem burn_unauthorized (st : State) (c i : Nat) (nft : Nft)
    (h : st.nfts[i]? = some nft) (ho : nft.owner ≠ c) :
    burn st c i = (Except.error Error.Unauthorized, st) := by
  simp [burn, h, ho]

theorem burn_ok (st : State) (c i : Nat) (nft : Nft)
    (h : st.nfts[i]? = some nft) (ho : nft.owner = c) :
    burn st c i =
      (Except.ok st.txid,
       { st with nfts := st.nfts.set i { nft with owner := MGMT },
                 txid := st.txid + 1 }) := by
  simp [burn, h, ho, State.next_txid]

theorem set_approval_for_all_self (st : State) (c : Nat) (b : Bool) :
    set_approval_for_all st c c b =
      (Except.ok st.txid, { st with txid := st.txid + 1 }) := by
  simp [set_approval_for_all, State.next_txid]

theorem set_approval_for_all_ne (st : State) (c o : Nat) (b : Bool)
    (h : o ≠ c) :
    set_approval_for_all st c o b =
      (Except.ok st.txid,
       { st with
           operators :=
             setOps st.operators c
               (if o == MGMT then
                  if !b then [] else (lookupOps st.operators c).getD []
                else
                  if b then insertSet ((lookupOps st.operators c).getD []) o
                  else removeSet ((lookupOps st.operators c).getD []) o),
           txid := st.txid + 1 }) := by
  simp [set_approval_for_all, State.next_txid, bne, h]

theorem safe_transfer_from_zero (st : State) (c f i : Nat) :
    safe_transfer_from st c f MGMT i = (Except.error Error.ZeroAddress, st) := by
  simp [safe_transfer_from]

theorem safe_transfer_from_ne (st : State) (c f t i : Nat) (h : t ≠ MGMT) :
    safe_transfer_from st c f t i = transfer_from st c f t i := by
  simp [safe_transfer_from, h]

theorem mint_eq (dg : Nat → List Nat) (sys : Sys) (t : Nat)
    (md : List MetadataPart) (ct : List Nat) :
    mint dg sys t md ct =
      ({ token_id := sys.state.nfts.length, id := sys.state.txid },
       { state :=
           { sys.state with
               nfts := sys.state.nfts ++
                 [{ owner := t, approved := none, id := sys.state.nfts.length,
                    metadata := md, content := ct }],
               txid := sys.state.txid + 1 },
         hashes := add_hash dg sys.hashes sys.state.nfts.length }) := rfl

theorem simple_mint_empty (uv : String → Bool) (sh : List Nat → List Nat)
    (dg : Nat → List Nat) (now : Int) (sys : Sys) (t : Nat)
    (mime nm og : String) :
    simple_mint uv sh dg now sys t "" mime nm og
      = (MintCallResult.ret (Except.error ConstrainedError.Unauthorized), sys) := by
  simp [simple_mint]

theorem simple_mint_bad_uri (uv : String → Bool) (sh : List Nat → List Nat)
    (dg : Nat → List Nat) (now : Int) (sys : Sys) (t : Nat)
    (uri mime nm og : String) (h : uv uri = false) :
    simple_mint uv sh dg now sys t uri mime nm og
      = (MintCallResult.ret (Except.error ConstrainedError.Unauthorized), sys) := by
  by_cases hl : 0 < uri.length
  · simp [simple_mint, hl, h]
  · simp [simple_mint, hl]

theorem simple_mint_time (uv : String → Bool) (sh : List Nat → List Nat)
    (dg : Nat → List Nat) (now : Int) (sys : Sys) (t : Nat)
    (uri mime nm og : String) (hl : 0 < uri.length) (hu : uv uri = true)
    (ht : now < sys.state.begin_date ∨ now > sys.state.end_date) :
    simple_mint uv sh dg now sys t uri mime nm og
      = (MintCallResult.ret (Except.error ConstrainedError.TimeError), sys) := by
  rcases ht with ht | ht <;> simp [simple_mint, hl, hu, ht]

theorem simple_mint_not_whitelisted (uv : String → Bool)
    (sh : List Nat → List Nat) (dg : Nat → List Nat) (now : Int) (sys : Sys)
    (t : Nat) (uri mime nm og : String) (hl : 0 < uri.length)
    (hu : uv uri = true) (hb : sys.state.begin_date ≤ now)
    (he : now ≤ sys.state.end_date)
    (hw : sys.state.white_list.contains t = false) :
    simple_mint uv sh dg now sys t uri mime nm og
      = (MintCallResult.ret (Except.error ConstrainedError.Unauthorized), sys) := by
  simp at hw
  simp [simple_mint, hl, hu, Int.not_lt.mpr hb, Int.not_lt.mpr he, hw]

theorem simple_mint_trap (uv : String → Bool) (sh : List Nat → List Nat)
    (dg : Nat → List Nat) (now : Int) (sys : Sys) (t : Nat)
    (uri mime nm og : String) (hl : 0 < uri.length) (hu : uv uri = true)
    (hb : sys.state.begin_date ≤ now) (he : now ≤ sys.state.end_date)
    (hw : sys.state.white_list.contains t = true) :
    simple_mint uv sh dg now sys t uri mime nm og
      = (MintCallResult.trap, sys) := by
  simp at hw
  simp [simple_mint, hl, hu, Int.not_lt.mpr hb, Int.not_lt.mpr he, hw]

theorem simple_mint_no_uri (uv : String → Bool) (sh : List Nat → List Nat)
    (dg : Nat → List Nat) (now : Int) (sys : Sys) (t : Nat)
    (uri mime nm og : String) (hl : ¬ 0 < uri.length) :
    simple_mint uv sh dg now sys t uri mime nm og
      = (MintCallResult.ret (Except.error ConstrainedError.Unauthorized), sys) := by
  simp [simple_mint, hl]

-- ----------------------------------------------------------------
-- Success / failure dichotomies
-- ----------------------------------------------------------------

theorem transfer_from_shape (st : State) (c f t i : Nat) :
    (∃ st2, transfer_from st c f t i = (Except.ok st.txid, st2)
        ∧ st2.txid = st.txid + 1)
    ∨ ∃ e, transfer_from st c f t i = (Except.error e, st) := by
  cases h : st.nfts[i]? with
  | none => exact Or.inr ⟨_, transfer_from_invalid st c f t i h⟩
  | some nft =>
    cases ha : authorizedB st nft f c with
    | false => exact Or.inr ⟨_, transfer_from_unauthorized st c f t i nft h ha⟩
    | true =>
      by_cases ho : nft.owner = f
      · exact Or.inl ⟨_, transfer_from_ok st c f t i nft h ha ho, rfl⟩
      · exact Or.inr ⟨_, transfer_from_mismatch st c f t i nft h ha ho⟩

theorem safe_transfer_from_shape (st : State) (c f t i : Nat) :
    (∃ st2, safe_transfer_from st c f t i = (Except.ok st.txid, st2)
        ∧ st2.txid = st.txid + 1)
    ∨ ∃ e, safe_transfer_from st c f t i = (Except.error e, st) := by
  by_cases hm : t = MGMT
  · subst hm
    exact Or.inr ⟨_, safe_transfer_from_zero st c f i⟩
  · rw [safe_transfer_from_ne st c f t i hm]
    exact transfer_from_shape st c f t i

theorem approve_shape (st : State) (c u i : Nat) :
    (∃ st2, approve st c u i = (Except.ok st.txid, st2)
        ∧ st2.txid = st.txid + 1)
    ∨ ∃ e, approve st c u i = (Except.error e, st) := by
  cases h : st.nfts[i]? with
  | none => exact Or.inr ⟨_, approve_invalid st c u i h⟩
  | some nft =>
    cases ha : authorizedB st nft u c with
    | false => exact Or.inr ⟨_, approve_unauthorized st c u i nft h ha⟩
    | true => exact Or.inl ⟨_, approve_ok st c u i nft h ha, rfl⟩

theorem burn_shape (st : State) (c i : Nat) :
    (∃ st2, burn st c i = (Except.ok st.txid, st2) ∧ st2.txid = st.txid + 1)
    ∨ ∃ e, burn st c i = (Except.error e, st) := by
  cases h : st.nfts[i]? with
  | none => exact Or.inr ⟨_, burn_invalid st c i h⟩
  | some nft =>
    by_cases ho : nft.owner = c
    · exact Or.inl ⟨_, burn_ok st c i nft h ho, rfl⟩
    · exact Or.inr ⟨_, burn_unauthorized st c i nft h ho⟩

theorem set_approval_for_all_shape (st : State) (c o : Nat) (b : Bool) :
    ∃ st2, set_approval_for_all st c o b = (Except.ok st.txid, st2)
      ∧ st2.txid = st.txid + 1 := by
  by_cases h : o = c
  · subst h
    exact ⟨_, set_approval_for_all_self st o b, rfl⟩
  · exact ⟨_, set_approval_for_all_ne st c o b h, rfl⟩

theorem simple_mint_shape (uv : String → Bool) (sh : List Nat → List Nat)
    (dg : Nat → List Nat) (now : Int) (sys : Sys) (t : Nat)
    (uri mime nm og : String) :
    (∃ e, simple_mint uv sh dg now sys t uri mime nm og
        = (MintCallResult.ret (Except.error e), sys))
    ∨ simple_mint uv sh dg now sys t uri mime nm og
        = (MintCallResult.trap, sys) := by
  by_cases hl : 0 < uri.length
  · cases hu : uv uri with
    | false =>
      exact Or.inl ⟨_, simple_mint_bad_uri uv sh dg now sys t uri mime nm og hu⟩
    | true =>
      by_cases hb : now < sys.state.begin_date
      · exact Or.inl ⟨_, simple_mint_time uv sh dg now sys t uri mime nm og
          hl hu (Or.inl hb)⟩
      · by_cases he : now > sys.state.end_date
        · exact Or.inl ⟨_, simple_mint_time uv sh dg now sys t uri mime nm og
            hl hu (Or.inr he)⟩
        · cases hw : sys.state.white_list.contains t with
          | false =>
            exact Or.inl ⟨_, simple_mint_not_whitelisted uv sh dg now sys t
              uri mime nm og hl hu (Int.not_lt.mp hb) (Int.not_lt.mp he) hw⟩
          | true =>
            exact Or.inr (simple_mint_trap uv sh dg now sys t uri mime nm og
              hl hu (Int.not_lt.mp hb) (Int.not_lt.mp he) hw)
  · exact Or.inl ⟨_, simple_mint_no_uri uv sh dg now sys t uri mime nm og hl⟩

theorem step_shape (uv : String → Bool) (sh : List Nat → List Nat)
    (dg : Nat → List Nat) (sys : Sys) (op : Op) :
    (∃ sys2, step uv sh dg sys op = (some sys.state.txid, sys2)
        ∧ sys2.state.txid = sys.state.txid + 1)
    ∨ step uv sh dg sys op = (none, sys) := by
  cases op with
  | transferOp c f t i =>
    rcases transfer_from_shape sys.state c f t i with ⟨st2, hok, ht⟩ | ⟨e, herr⟩
    · exact Or.inl ⟨{ sys with state := st2 }, by simp [step, liftSt, hok, Except.toOption], ht⟩
    · exact Or.inr (by simp [step, liftSt, herr, Except.toOption])
  | safeTransferOp c f t i =>
    rcases safe_transfer_from_shape sys.state c f t i with ⟨st2, hok, ht⟩ | ⟨e, herr⟩
    · exact Or.inl ⟨{ sys with state := st2 }, by simp [step, liftSt, hok, Except.toOption], ht⟩
    · exact Or.inr (by simp [step, liftSt, herr, Except.toOption])
  | approveOp c u i =>
    rcases approve_shape sys.state c u i with ⟨st2, hok, ht⟩ | ⟨e, herr⟩
    · exact Or.inl ⟨{ sys with state := st2 }, by simp [step, liftSt, hok, Except.toOption], ht⟩
    · exact Or.inr (by simp [step, liftSt, herr, Except.toOption])
  | setApprovalOp c o b =>
    rcases set_approval_for_all_shape sys.state c o b with ⟨st2, hok, ht⟩
    exact Or.inl ⟨{ sys with state := st2 }, by simp [step, liftSt, hok, Except.toOption], ht⟩
  | burnOp c i =>
    rcases burn_shape sys.state c i with ⟨st2, hok, ht⟩ | ⟨e, herr⟩
    · exact Or.inl ⟨{ sys with state := st2 }, by simp [step, liftSt, hok, Except.toOption], ht⟩
    · exact Or.inr (by simp [step, liftSt, herr, Except.toOption])
  | mintOp t md ct =>
    exact Or.inl ⟨_, rfl, rfl⟩
  | simpleMintOp now t uri mt nm og =>
    rcases simple_mint_shape uv sh dg now sys t uri mt nm og with
      ⟨e, herr⟩ | htrap
    · exact Or.inr (by simp [step, herr, Except.toOption])
    · exact Or.inr (by simp [step, htrap])

theorem run_txids (uv : String → Bool) (sh : List Nat → List Nat)
    (dg : Nat → List Nat) :
    ∀ (ops : List Op) (sys : Sys),
      (run uv sh dg sys ops).1
          = List.range' sys.state.txid (run uv sh dg sys ops).1.length
        ∧ (run uv sh dg sys ops).2.state.txid
          = sys.state.txid + (run uv sh dg sys ops).1.length := by
  intro ops
  induction ops with
  | nil => intro sys; exact ⟨rfl, rfl⟩
  | cons op ops ih =>
    intro sys
    rcases step_shape uv sh dg sys op with ⟨sys2, hs, ht⟩ | hs
    · have h1 := (ih sys2).1
      have h2 := (ih sys2).2
      constructor
      · simp only [run, hs, List.length_cons]
        have hr : List.range' sys.state.txid ((run uv sh dg sys2 ops).1.length + 1)
            = sys.state.txid ::
                List.range' (sys.state.txid + 1) (run uv sh dg sys2 ops).1.length := rfl
        rw [hr, ← ht, ← h1]
      · simp only [run, hs, List.length_cons]
        omega
    · have h1 := (ih sys).1
      have h2 := (ih sys).2
      constructor
      · simp only [run, hs]
        exact h1
      · simp only [run, hs]
        exact h2

-- ----------------------------------------------------------------
-- Operator-map membership lemmas
-- ----------------------------------------------------------------

theorem lookupOps_setOps_self (ops : List (Nat × List Nat)) (k : Nat)
    (v : List Nat) : lookupOps (setOps ops k v) k = some v := by
  induction ops with
  | nil => simp [setOps, lookupOps]
  | cons p rest ih =>
    obtain ⟨a, w⟩ := p
    by_cases h : a = k <;> simp [setOps, lookupOps, h, ih]

theorem lookupOps_setOps_ne (ops : List (Nat × List Nat)) (k k2 : Nat)
    (v : List Nat) (h : k ≠ k2) :
    lookupOps (setOps ops k v) k2 = lookupOps ops k2 := by
  induction ops with
  | nil => simp [setOps, lookupOps, h]
  | cons p rest ih =>
    obtain ⟨a, w⟩ := p
    by_cases ha : a = k
    · subst ha
      simp [setOps, lookupOps, h]
    · simp [setOps, lookupOps, ha, ih]

theorem operatorsContain_setOps_self (ops : List (Nat × List Nat)) (c : Nat)
    (v : List Nat) (x : Nat) :
    operatorsContain (setOps ops c v) c x = v.contains x := by
  simp [operatorsContain, lookupOps_setOps_self]

theorem operatorsContain_setOps_ne (ops : List (Nat × List Nat)) (c c2 : Nat)
    (v : List Nat) (x : Nat) (h : c2 ≠ c) :
    operatorsContain (setOps ops c v) c2 x = operatorsContain ops c2 x := by
  simp [operatorsContain, lookupOps_setOps_ne ops c c2 v (fun e => h e.symm)]

theorem getD_contains_eq (ops : List (Nat × List Nat)) (c x : Nat) :
    ((lookupOps ops c).getD []).contains x = operatorsContain ops c x := by
  cases h : lookupOps ops c <;> simp [operatorsContain, h]

theorem contains_insertSet_self (s : List Nat) (x : Nat) :
    (insertSet s x).contains x = true := by
  unfold insertSet
  by_cases h : s.contains x <;> simp_all

theorem contains_insertSet_ne (s : List Nat) (x y : Nat) (h : y ≠ x) :
    (insertSet s x).contains y = s.contains y := by
  unfold insertSet
  by_cases hc : s.contains x <;> simp_all

theorem contains_removeSet_self (s : List Nat) (x : Nat) :
    (removeSet s x).contains x = false := by
  simp [removeSet, List.mem_filter]

theorem contains_removeSet_ne (s : List Nat) (x y : Nat) (h : y ≠ x) :
    (removeSet s x).contains y = s.contains y := by
  simp only [removeSet]
  cases hc : s.contains y
  · have hm : y ∉ s := by simpa using hc
    simp [List.mem_filter, hm]
  · have hm : y ∈ s := by simpa using hc
    simp [List.mem_filter, hm, h]

-- ----------------------------------------------------------------
-- Concrete example registries used by the witnesses
-- ----------------------------------------------------------------

/-- A concrete token: owned by identity 1, approved delegate 2. -/
def exNft : Nft :=
  { owner := 1, approved := some 2, id := 0, metadata := [], content := [] }

/-- A concrete registry: token 0 as in `exNft`; identity 3 is a
custodian; identity 1 has registered identity 4 as an operator;
identity 6 is whitelisted; mint window is [100, 200]; counter at 7. -/
def exState : State :=
  { nfts := [exNft], custodians := [3], operators := [(1, [4])],
    logo := none, name := "nft", symbol := "sym", txid := 7,
    white_list := [6], begin_date := 100, end_date := 200,
    total_limit := "" }

/-- `exState` after a successful transfer of token 0 from 1 to 5. -/
def exStateT : State :=
  { exState with nfts := [{ exNft with approved := none, owner := 5 }],
                 txid := 8 }

/-- The full system around `exState`, with an empty hash index. -/
def exSys : Sys := { state := exState, hashes := [] }

/-- `exSys` after a successful burn of token 0 by its owner. -/
def exSysBurned : Sys :=
  { state := { exState with nfts := [{ exNft with owner := MGMT }],
                            txid := 8 },
    hashes := [] }

/-- An empty registry ready for the C3 mint scenario: custodian 3,
whitelisted identity 6, mint window [100, 200], counter at 0. -/
def exMintState : State :=
  { nfts := [], custodians := [3], operators := [], logo := none,
    name := "nft", symbol := "sym", txid := 0, white_list := [6],
    begin_date := 100, end_date := 200, total_limit := "" }

def exMintSys : Sys := { state := exMintState, hashes := [] }

/-- A registry whose only token has been burned (owner is the sentinel)
while its approved delegate 2 is still set. -/
def exBurnedState : State :=
  { exState with nfts := [{ exNft with owner := MGMT }] }

-- ----------------------------------------------------------------
-- Claims
-- ----------------------------------------------------------------

/-- C1: `transferFrom(from, to, token_id)` checks in this exact order:
it fails with `InvalidTokenId` when `token_id` is out of range;
otherwise, when the caller is not the token's owner, nor its approved
delegate, nor a registered operator of the caller-supplied `from`, nor
a custodian (i.e. AccessControl with subject `from` fails), it fails
with `Unauthorized`; otherwise, when the token's actual owner is not
`from`, it fails with the distinct ownership-mismatch error `Other`
(different from `Unauthorized`) — so authorization is evaluated against
the caller-supplied `from` before `from` is confirmed to be the real
owner, and a mismatching `from` is always rejected (last conjunct). -/
theorem C1_transfer_check_order :
    (∀ (st : State) (c f t i : Nat), st.nfts[i]? = none →
        transfer_from st c f t i = (Except.error Error.InvalidTokenId, st))
    ∧ (∀ (st : State) (c f t i : Nat) (nft : Nft), st.nfts[i]? = some nft →
        authorizedB st nft f c = false →
        transfer_from st c f t i = (Except.error Error.Unauthorized, st))
    ∧ (∀ (st : State) (c f t i : Nat) (nft : Nft), st.nfts[i]? = some nft →
        authorizedB st nft f c = true → nft.owner ≠ f →
        transfer_from st c f t i = (Except.error Error.Other, st))
    ∧ Error.Other ≠ Error.Unauthorized
    ∧ (∀ (st : State) (c f t i : Nat) (nft : Nft), st.nfts[i]? = some nft →
        nft.owner ≠ f →
        (transfer_from st c f t i).1 = Except.error Error.Unauthorized
          ∨ (transfer_from st c f t i).1 = Except.error Error.Other) := by
  refine ⟨transfer_from_invalid, transfer_from_unauthorized,
    transfer_from_mismatch, by decide, ?_⟩
  intro st c f t i nft h ho
  cases ha : authorizedB st nft f c with
  | false => exact Or.inl (by rw [transfer_from_unauthorized st c f t i nft h ha])
  | true => exact Or.inr (by rw [transfer_from_mismatch st c f t i nft h ha ho])

/-- Witness for C1: an out-of-range id, an unrelated caller, and a
custodian caller supplying a wrong `from`, on the concrete registry. -/
theorem C1_witness :
    transfer_from exState 5 1 9 3 = (Except.error Error.InvalidTokenId, exState)
    ∧ transfer_from exState 5 1 9 0 = (Except.error Error.Unauthorized, exState)
    ∧ transfer_from exState 3 8 9 0 = (Except.error Error.Other, exState) :=
  ⟨C1_transfer_check_order.1 exState 5 1 9 3 (by decide),
   C1_transfer_check_order.2.1 exState 5 1 9 0 exNft (by decide) (by decide),
   C1_transfer_check_order.2.2.1 exState 3 8 9 0 exNft (by decide) (by decide)
     (by decide)⟩

/-- C2: whenever `transfer_from` — or `safe_transfer_from`, whose
target is then necessarily non-sentinel — succeeds, the token's
`approved` is cleared to `none`, its owner becomes `to`, the returned
txid is the freshly allocated counter value, and no other token is
modified. -/
theorem C2_transfer_success_effects :
    ∀ (st : State) (c f t i j r : Nat) (st2 : State) (nft : Nft),
      st.nfts[i]? = some nft →
      (transfer_from st c f t i = (Except.ok r, st2)
        ∨ safe_transfer_from st c f t i = (Except.ok r, st2)) →
      r = st.txid
      ∧ st2 = { st with
          nfts := st.nfts.set i { nft with approved := none, owner := t },
          txid := st.txid + 1 }
      ∧ st2.nfts[i]? = some { nft with approved := none, owner := t }
      ∧ (j ≠ i → st2.nfts[j]? = st.nfts[j]?) := by
  intro st c f t i j r st2 nft hnft hcall
  have htr : transfer_from st c f t i = (Except.ok r, st2) := by
    rcases hcall with h | h
    · exact h
    · by_cases hm : t = MGMT
      · subst hm
        rw [safe_transfer_from_zero] at h
        simp at h
      · rwa [safe_transfer_from_ne st c f t i hm] at h
  have hlen : i < st.nfts.length := (List.getElem?_eq_some.mp hnft).1
  cases ha : authorizedB st nft f c with
  | false =>
    rw [transfer_from_unauthorized st c f t i nft hnft ha] at htr
    simp at htr
  | true =>
    by_cases ho : nft.owner = f
    · rw [transfer_from_ok st c f t i nft hnft ha ho] at htr
      injection htr with h1 h2
      injection h1 with hr
      refine ⟨hr.symm, h2.symm, ?_, ?_⟩
      · rw [← h2]
        exact List.getElem?_set_self hlen
      · intro hj
        rw [← h2]
        exact List.getElem?_set_ne (fun e => hj e.symm)
    · rw [transfer_from_mismatch st c f t i nft hnft ha ho] at htr
      simp at htr

/-- Witness for C2: owner 1 transfers token 0 to 5; token 0 ends up
owned by 5 with no delegate, and index 1 (out of range) is unchanged. -/
theorem C2_witness :
    (7:Nat) = exState.txid
    ∧ exStateT = { exState with
        nfts := exState.nfts.set 0 { exNft with approved := none, owner := 5 },
        txid := exState.txid + 1 }
    ∧ exStateT.nfts[0]? = some { exNft with approved := none, owner := 5 }
    ∧ ((1:Nat) ≠ 0 → exStateT.nfts[1]? = exState.nfts[1]?) :=
  C2_transfer_success_effects exState 1 1 5 0 1 7 exStateT exNft (by decide)
    (Or.inl (by decide))

/-- C5: `burn(token_id)` fails with `InvalidTokenId` out of range, and
otherwise succeeds iff the caller is the token's current owner — an
approved delegate, an operator, or a custodian with a different
identity is rejected with `Unauthorized` like anyone else; on success
the owner becomes the sentinel, a fresh txid is returned, and the
token's `approved` field is left unchanged. -/
theorem C5_burn_owner_only :
    (∀ (st : State) (c i : Nat), st.nfts[i]? = none →
        burn st c i = (Except.error Error.InvalidTokenId, st))
    ∧ (∀ (st : State) (c i : Nat) (nft : Nft), st.nfts[i]? = some nft →
        nft.owner ≠ c → burn st c i = (Except.error Error.Unauthorized, st))
    ∧ (∀ (st : State) (c i : Nat) (nft : Nft), st.nfts[i]? = some nft →
        nft.owner = c →
        burn st c i = (Except.ok st.txid,
          { st with nfts := st.nfts.set i { nft with owner := MGMT },
                    txid := st.txid + 1 })
        ∧ ({ nft with owner := MGMT } : Nft).approved = nft.approved
        ∧ (st.nfts.set i { nft with owner := MGMT })[i]?
            = some { nft with owner := MGMT }) := by
  refine ⟨burn_invalid, burn_unauthorized, ?_⟩
  intro st c i nft h ho
  exact ⟨burn_ok st c i nft h ho, rfl,
    List.getElem?_set_self (List.getElem?_eq_some.mp h).1⟩

/-- Witness for C5: the custodian 3 cannot burn token 0; its owner 1
can, and the burned token keeps its stale delegate 2. -/
theorem C5_witness :
    burn exState 3 0 = (Except.error Error.Unauthorized, exState)
    ∧ (burn exState 1 0 = (Except.ok exState.txid,
        { exState with nfts := exState.nfts.set 0 { exNft with owner := MGMT },
                       txid := exState.txid + 1 })
      ∧ ({ exNft with owner := MGMT } : Nft).approved = exNft.approved
      ∧ (exState.nfts.set 0 { exNft with owner := MGMT })[0]?
          = some { exNft with owner := MGMT }) :=
  ⟨C5_burn_owner_only.2.1 exState 3 0 exNft (by decide) (by decide),
   C5_burn_owner_only.2.2 exState 1 0 exNft (by decide) (by decide)⟩

/-- C6: `approve(delegate, token_id)` fails with `InvalidTokenId` out
of range; otherwise it runs AccessControl with the caller-supplied
`delegate` as the operator-lookup subject (caller must be owner,
approved delegate, operator of `delegate`, or custodian), and on
success stores `approved = delegate` and returns a fresh txid. -/
theorem C6_approve_delegate_subject :
    (∀ (st : State) (c u i : Nat), st.nfts[i]? = none →
        approve st c u i = (Except.error Error.InvalidTokenId, st))
    ∧ (∀ (st : State) (c u i : Nat) (nft : Nft), st.nfts[i]? = some nft →
        authorizedB st nft u c = false →
        approve st c u i = (Except.error Error.Unauthorized, st))
    ∧ (∀ (st : State) (c u i : Nat) (nft : Nft), st.nfts[i]? = some nft →
        authorizedB st nft u c = true →
        approve st c u i = (Except.ok st.txid,
          { st with nfts := st.nfts.set i { nft with approved := some u },
                    txid := st.txid + 1 })
        ∧ (st.nfts.set i { nft with approved := some u })[i]?
            = some { nft with approved := some u }) := by
  refine ⟨approve_invalid, approve_unauthorized, ?_⟩
  intro st c u i nft h ha
  exact ⟨approve_ok st c u i nft h ha,
    List.getElem?_set_self (List.getElem?_eq_some.mp h).1⟩

/-- Witness for C6: caller 4 is an operator of identity 1, so approving
with delegate 1 succeeds (subject is the delegate), while an unrelated
caller 5 is rejected. -/
theorem C6_witness :
    approve exState 5 9 0 = (Except.error Error.Unauthorized, exState)
    ∧ (approve exState 4 1 0 = (Except.ok exState.txid,
        { exState with nfts := exState.nfts.set 0 { exNft with approved := some 1 },
                       txid := exState.txid + 1 })
      ∧ (exState.nfts.set 0 { exNft with approved := some 1 })[0]?
          = some { exNft with approved := some 1 }) :=
  ⟨C6_approve_delegate_subject.2.1 exState 5 9 0 exNft (by decide) (by decide),
   C6_approve_delegate_subject.2.2 exState 4 1 0 exNft (by decide) (by decide)⟩

/-- C8: every operation is atomic with respect to errors: whenever a
step returns no txid (a failure), the entire system state — registry
and content-hash index — is exactly the pre-call state. -/
theorem C8_error_atomicity :
    ∀ (uv : String → Bool) (sh : List Nat → List Nat) (dg : Nat → List Nat)
      (sys sys2 : Sys) (op : Op),
      step uv sh dg sys op = (none, sys2) → sys2 = sys := by
  intro uv sh dg sys sys2 op h
  rcases step_shape uv sh dg sys op with ⟨sys3, hok, _⟩ | hfail
  · rw [hok] at h
    simp at h
  · rw [hfail] at h
    injection h with h1 h2
    exact h2.symm

/-- Witness for C8: a transfer by the unrelated identity 5 fails and
leaves the concrete system untouched. -/
theorem C8_witness :
    step (fun _ => true) (fun _ => []) (fun _ => []) exSys
        (Op.transferOp 5 1 9 0) = (none, exSys)
    ∧ exSys = exSys :=
  ⟨by decide,
   C8_error_atomicity (fun _ => true) (fun _ => []) (fun _ => []) exSys exSys
     (Op.transferOp 5 1 9 0) (by decide)⟩

/-- C9: burning is reversible through the ordinary transfer path: for a
burned token (owner = sentinel), `transferFrom(sentinel, to, token_id)`
by a custodian — or by the still-set approved delegate, since burn does
not clear `approved` — passes both the authorization check and the
ownership check and succeeds, reassigning the owner to `to`. -/
theorem C9_burn_reversible :
    ∀ (st : State) (c t i : Nat) (nft : Nft),
      st.nfts[i]? = some nft → nft.owner = MGMT →
      (c ∈ st.custodians ∨ nft.approved = some c) →
      transfer_from st c MGMT t i
        = (Except.ok st.txid,
           { st with
               nfts := st.nfts.set i { nft with approved := none, owner := t },
               txid := st.txid + 1 }) := by
  intro st c t i nft h ho hc
  refine transfer_from_ok st c MGMT t i nft h ?_ ho
  rw [authorizedB_true_iff]
  rcases hc with hc | hc
  · exact Or.inr (Or.inr (Or.inr hc))
  · exact Or.inr (Or.inl hc)

/-- Witness for C9: on the burned registry, both the custodian 3 and
the stale delegate 2 can transfer token 0 out of the sentinel. -/
theorem C9_witness :
    transfer_from exBurnedState 3 MGMT 5 0
      = (Except.ok exBurnedState.txid,
         { exBurnedState with
             nfts := exBurnedState.nfts.set 0
               { { exNft with owner := MGMT } with approved := none, owner := 5 },
             txid := exBurnedState.txid + 1 })
    ∧ transfer_from exBurnedState 2 MGMT 5 0
      = (Except.ok exBurnedState.txid,
         { exBurnedState with
             nfts := exBurnedState.nfts.set 0
               { { exNft with owner := MGMT } with approved := none, owner := 5 },
             txid := exBurnedState.txid + 1 }) :=
  ⟨C9_burn_reversible exBurnedState 3 5 0 { exNft with owner := MGMT }
     (by decide) rfl (Or.inl (by decide)),
   C9_burn_reversible exBurnedState 2 5 0 { exNft with owner := MGMT }
     (by decide) rfl (Or.inr rfl)⟩

/-- C10: `simple_mint` validates the URI before anything else: an empty
or syntactically invalid URI yields the `Unauthorized` kind for every
time and every recipient (in particular also outside the mint window or
for a non-whitelisted recipient), and a `TimeError` outcome can only
arise from a non-empty, well-formed URI. -/
theorem C10_uri_checked_first :
    (∀ (uv : String → Bool) (sh : List Nat → List Nat) (dg : Nat → List Nat)
       (now : Int) (sys : Sys) (t : Nat) (uri mime nm og : String),
       uri = "" ∨ uv uri = false →
       simple_mint uv sh dg now sys t uri mime nm og
         = (MintCallResult.ret
              (Except.error ConstrainedError.Unauthorized), sys))
    ∧ (∀ (uv : String → Bool) (sh : List Nat → List Nat) (dg : Nat → List Nat)
       (now : Int) (sys sys2 : Sys) (t : Nat) (uri mime nm og : String),
       simple_mint uv sh dg now sys t uri mime nm og
           = (MintCallResult.ret
                (Except.error ConstrainedError.TimeError), sys2) →
       0 < uri.length ∧ uv uri = true) := by
  constructor
  · intro uv sh dg now sys t uri mime nm og h
    rcases h with h | h
    · subst h
      exact simple_mint_empty uv sh dg now sys t mime nm og
    · exact simple_mint_bad_uri uv sh dg now sys t uri mime nm og h
  · intro uv sh dg now sys sys2 t uri mime nm og h
    by_cases hl : 0 < uri.length
    · cases hu : uv uri with
      | false =>
        rw [simple_mint_bad_uri uv sh dg now sys t uri mime nm og hu] at h
        simp at h
      | true => exact ⟨hl, rfl⟩
    · rw [simple_mint_no_uri uv sh dg now sys t uri mime nm og hl] at h
      simp at h

/-- Witness for C10: an empty URI and a rejected URI both yield
`Unauthorized` at a time far outside the mint window. -/
theorem C10_witness :
    simple_mint (fun _ => true) (fun _ => []) (fun _ => []) 999 exSys 6
        "" "m" "n" "o"
      = (MintCallResult.ret (Except.error ConstrainedError.Unauthorized), exSys)
    ∧ simple_mint (fun _ => false) (fun _ => []) (fun _ => []) 999 exSys 6
        "u" "m" "n" "o"
      = (MintCallResult.ret (Except.error ConstrainedError.Unauthorized), exSys) :=
  ⟨C10_uri_checked_first.1 (fun _ => true) (fun _ => []) (fun _ => []) 999
     exSys 6 "" "m" "n" "o" (Or.inl rfl),
   C10_uri_checked_first.1 (fun _ => false) (fun _ => []) (fun _ => []) 999
     exSys 6 "u" "m" "n" "o" (Or.inr rfl)⟩

-- Specialised forms of `set_approval_for_all` on the four branches.

theorem set_approval_for_all_mgmt_false (st : State) (c : Nat)
    (h : MGMT ≠ c) :
    set_approval_for_all st c MGMT false
      = (Except.ok st.txid,
         { st with operators := setOps st.operators c [],
                   txid := st.txid + 1 }) := by
  rw [set_approval_for_all_ne st c MGMT false h]
  simp

theorem set_approval_for_all_mgmt_true (st : State) (c : Nat)
    (h : MGMT ≠ c) :
    set_approval_for_all st c MGMT true
      = (Except.ok st.txid,
         { st with
             operators := setOps st.operators c
               ((lookupOps st.operators c).getD []),
             txid := st.txid + 1 }) := by
  rw [set_approval_for_all_ne st c MGMT true h]
  simp

theorem set_approval_for_all_insert (st : State) (c o : Nat)
    (ho : o ≠ MGMT) (h : o ≠ c) :
    set_approval_for_all st c o true
      = (Except.ok st.txid,
         { st with
             operators := setOps st.operators c
               (insertSet ((lookupOps st.operators c).getD []) o),
             txid := st.txid + 1 }) := by
  rw [set_approval_for_all_ne st c o true h]
  have hb : (o == MGMT) = false := by simp [ho]
  rw [hb]
  simp

theorem set_approval_for_all_remove (st : State) (c o : Nat)
    (ho : o ≠ MGMT) (h : o ≠ c) :
    set_approval_for_all st c o false
      = (Except.ok st.txid,
         { st with
             operators := setOps st.operators c
               (removeSet ((lookupOps st.operators c).getD []) o),
             txid := st.txid + 1 }) := by
  rw [set_approval_for_all_ne st c o false h]
  have hb : (o == MGMT) = false := by simp [ho]
  rw [hb]
  simp

/-- C3 (code bug): in the claim's scenario — custodians containing
exactly A, whitelist containing exactly B, mint window [T0, T1], empty
registry, non-empty valid URI — the in-window call targeting B does NOT
succeed: the source still holds the lifetime-extended
`begin_date`/`end_date`/`white_list` borrows of the `STATE` RefCell
when it calls `mint`, whose `borrow_mut` panics, so the call traps with
no token minted, where the claim asserts success with token 0 owned by
B. The failure parts of the claim do hold: after T1 the call fails with
`TimeError`, and targeting a non-whitelisted identity C fails with the
`Unauthorized` kind. The caller is irrelevant: `simple_mint` never
inspects it. -/
theorem C3_simple_mint_traps :
    ∀ (uriValid : String → Bool) (sha256 : List Nat → List Nat)
      (digest : Nat → List Nat) (A B C : Nat) (T0 T1 now : Int) (sys : Sys)
      (uri mime nm og : String),
      sys.state.nfts = [] → sys.state.custodians = [A] →
      sys.state.white_list = [B] → sys.state.begin_date = T0 →
      sys.state.end_date = T1 → 0 < uri.length → uriValid uri = true →
      ((T0 ≤ now ∧ now ≤ T1 →
         simple_mint uriValid sha256 digest now sys B uri mime nm og
           = (MintCallResult.trap, sys))
       ∧ (T1 < now →
           simple_mint uriValid sha256 digest now sys B uri mime nm og
             = (MintCallResult.ret
                  (Except.error ConstrainedError.TimeError), sys))
       ∧ (T0 ≤ now → now ≤ T1 → C ∉ sys.state.white_list →
           simple_mint uriValid sha256 digest now sys C uri mime nm og
             = (MintCallResult.ret
                  (Except.error ConstrainedError.Unauthorized), sys))) := by
  intro uv sh dg A B C T0 T1 now sys uri mime nm og hn hcust hw hb he hl hu
  refine ⟨fun hwin => ?_, fun hlate => ?_, fun h1 h2 h3 => ?_⟩
  · exact simple_mint_trap uv sh dg now sys B uri mime nm og hl hu
      (by rw [hb]; exact hwin.1) (by rw [he]; exact hwin.2)
      (by rw [hw]; simp)
  · exact simple_mint_time uv sh dg now sys B uri mime nm og hl hu
      (Or.inr (by rw [he]; exact hlate))
  · exact simple_mint_not_whitelisted uv sh dg now sys C uri mime nm og hl hu
      (by rw [hb]; exact h1) (by rw [he]; exact h2) (by simpa using h3)

/-- Witness for C3: the concrete empty registry, URI "u", identity 6
whitelisted, window [100, 200]; at time 150 the call traps without
minting, at time 300 it fails with `TimeError`, and targeting 9 fails
with `Unauthorized`; in each case the state is unchanged. -/
theorem C3_witness :
    simple_mint (fun _ => true) (fun _ => []) (fun _ => []) 150 exMintSys 6
        "u" "m" "n" "o"
      = (MintCallResult.trap, exMintSys)
    ∧ simple_mint (fun _ => true) (fun _ => []) (fun _ => []) 300 exMintSys 6
        "u" "m" "n" "o"
      = (MintCallResult.ret
           (Except.error ConstrainedError.TimeError), exMintSys)
    ∧ simple_mint (fun _ => true) (fun _ => []) (fun _ => []) 150 exMintSys 9
        "u" "m" "n" "o"
      = (MintCallResult.ret
           (Except.error ConstrainedError.Unauthorized), exMintSys) := by
  have h := C3_simple_mint_traps (fun _ => true) (fun _ => [])
    (fun _ => []) 3 6 9 100 200 150 exMintSys "u" "m" "n" "o"
    rfl rfl rfl rfl rfl (by decide) rfl
  have h2 := C3_simple_mint_traps (fun _ => true) (fun _ => [])
    (fun _ => []) 3 6 9 100 200 300 exMintSys "u" "m" "n" "o"
    rfl rfl rfl rfl rfl (by decide) rfl
  exact ⟨h.1 ⟨by decide, by decide⟩, h2.2.1 (by decide),
    h.2.2 (by decide) (by decide) (by decide)⟩

/-- C4: every successful mutating operation returns the pre-advance
counter value and advances the counter by exactly one; every failed
operation leaves the counter unchanged; hence the txids collected from
any operation sequence are exactly the consecutive range starting at
the initial counter — strictly increasing with no gaps caused by
interleaved failed calls. -/
theorem C4_txid_sequencing :
    ∀ (uv : String → Bool) (sh : List Nat → List Nat) (dg : Nat → List Nat),
      (∀ (sys sys2 : Sys) (op : Op) (r : Nat),
         step uv sh dg sys op = (some r, sys2) →
         r = sys.state.txid ∧ sys2.state.txid = sys.state.txid + 1)
      ∧ (∀ (sys sys2 : Sys) (op : Op),
         step uv sh dg sys op = (none, sys2) →
         sys2.state.txid = sys.state.txid)
      ∧ (∀ (sys : Sys) (ops : List Op),
         (run uv sh dg sys ops).1
           = List.range' sys.state.txid (run uv sh dg sys ops).1.length) := by
  intro uv sh dg
  refine ⟨?_, ?_, ?_⟩
  · intro sys sys2 op r h
    rcases step_shape uv sh dg sys op with ⟨sys3, hok, ht⟩ | hfail
    · rw [hok] at h
      injection h with h1 h2
      injection h1 with hr
      subst h2
      exact ⟨hr.symm, ht⟩
    · rw [hfail] at h
      simp at h
  · intro sys sys2 op h
    rcases step_shape uv sh dg sys op with ⟨sys3, hok, _⟩ | hfail
    · rw [hok] at h
      simp at h
    · rw [hfail] at h
      injection h with _ h2
      rw [← h2]
  · intro sys ops
    exact (run_txids uv sh dg ops sys).1

/-- Witness for C4: on the concrete registry, a successful burn returns
txid 7 and advances the counter to 8; a failed burn keeps it at 7; a
run of one succeeding and one failing burn collects exactly [7]. -/
theorem C4_witness :
    ((7:Nat) = exSys.state.txid
      ∧ exSysBurned.state.txid = exSys.state.txid + 1)
    ∧ exSys.state.txid = exSys.state.txid
    ∧ (run (fun _ => true) (fun _ => []) (fun _ => []) exSys
          [Op.burnOp 1 0, Op.burnOp 1 0]).1
        = List.range' exSys.state.txid
            (run (fun _ => true) (fun _ => []) (fun _ => []) exSys
              [Op.burnOp 1 0, Op.burnOp 1 0]).1.length :=
  ⟨(C4_txid_sequencing (fun _ => true) (fun _ => []) (fun _ => [])).1
     exSys exSysBurned (Op.burnOp 1 0) 7 (by decide),
   (C4_txid_sequencing (fun _ => true) (fun _ => []) (fun _ => [])).2.1
     exSys exSys (Op.burnOp 5 0) (by decide),
   (C4_txid_sequencing (fun _ => true) (fun _ => []) (fun _ => [])).2.2
     exSys [Op.burnOp 1 0, Op.burnOp 1 0]⟩

/-- C7: `setApprovalForAll(operator, isApproved)` changes no
operator-set membership when `operator` equals the caller; when
`operator` is the sentinel, `isApproved = false` clears the caller's
whole operator set (leaving other callers' sets untouched) while
`isApproved = true` changes no membership — in particular it never
grants "everyone": a transfer attempt by an identity that failed
AccessControl before such a call still fails `Unauthorized` after it;
otherwise it adds `operator` to / removes it from the caller's set; and
in every case the call succeeds and returns a fresh txid. -/
theorem C7_set_approval_for_all :
    (∀ (st : State) (c o : Nat) (b : Bool),
       (set_approval_for_all st c o b).1 = Except.ok st.txid
         ∧ (set_approval_for_all st c o b).2.txid = st.txid + 1)
    ∧ (∀ (st : State) (c : Nat) (b : Bool),
       (set_approval_for_all st c c b).2.operators = st.operators)
    ∧ (∀ (st : State) (c : Nat), MGMT ≠ c →
       (∀ x, operatorsContain
           (set_approval_for_all st c MGMT false).2.operators c x = false)
       ∧ (∀ c2 x, c2 ≠ c →
           operatorsContain
               (set_approval_for_all st c MGMT false).2.operators c2 x
             = operatorsContain st.operators c2 x))
    ∧ (∀ (st : State) (c c2 x : Nat), MGMT ≠ c →
       operatorsContain (set_approval_for_all st c MGMT true).2.operators c2 x
         = operatorsContain st.operators c2 x)
    ∧ (∀ (st : State) (c c2 f t i : Nat) (nft : Nft), MGMT ≠ c →
       st.nfts[i]? = some nft → authorizedB st nft f c2 = false →
       transfer_from (set_approval_for_all st c MGMT true).2 c2 f t i
         = (Except.error Error.Unauthorized,
            (set_approval_for_all st c MGMT true).2))
    ∧ (∀ (st : State) (c o : Nat), o ≠ MGMT → o ≠ c →
       operatorsContain
           (set_approval_for_all st c o true).2.operators c o = true
       ∧ operatorsContain
           (set_approval_for_all st c o false).2.operators c o = false
       ∧ (∀ x, x ≠ o →
           operatorsContain (set_approval_for_all st c o true).2.operators c x
             = operatorsContain st.operators c x
           ∧ operatorsContain
               (set_approval_for_all st c o false).2.operators c x
             = operatorsContain st.operators c x)
       ∧ (∀ c2 x, c2 ≠ c →
           operatorsContain
               (set_approval_for_all st c o true).2.operators c2 x
             = operatorsContain st.operators c2 x
           ∧ operatorsContain
               (set_approval_for_all st c o false).2.operators c2 x
             = operatorsContain st.operators c2 x)) := by
  refine ⟨?_, ?_, ?_, ?_, ?_, ?_⟩
  · intro st c o b
    rcases set_approval_for_all_shape st c o b with ⟨st2, heq, ht⟩
    exact ⟨by rw [heq], by rw [heq]; exact ht⟩
  · intro st c b
    rw [set_approval_for_all_self]
  · intro st c h
    constructor
    · intro x
      rw [set_approval_for_all_mgmt_false st c h]
      show operatorsContain (setOps st.operators c []) c x = false
      rw [operatorsContain_setOps_self]
      rfl
    · intro c2 x hc2
      rw [set_approval_for_all_mgmt_false st c h]
      show operatorsContain (setOps st.operators c []) c2 x
        = operatorsContain st.operators c2 x
      exact operatorsContain_setOps_ne st.operators c c2 [] x hc2
  · intro st c c2 x h
    rw [set_approval_for_all_mgmt_true st c h]
    show operatorsContain
        (setOps st.operators c ((lookupOps st.operators c).getD [])) c2 x
      = operatorsContain st.operators c2 x
    by_cases hc2 : c2 = c
    · subst hc2
      rw [operatorsContain_setOps_self, getD_contains_eq]
    · exact operatorsContain_setOps_ne st.operators c c2 _ x hc2
  · intro st c c2 f t i nft h hnft ha
    have hops : operatorsContain
        (setOps st.operators c ((lookupOps st.operators c).getD [])) f c2
        = operatorsContain st.operators f c2 := by
      by_cases hf : f = c
      · subst hf
        rw [operatorsContain_setOps_self, getD_contains_eq]
      · exact operatorsContain_setOps_ne st.operators c f _ c2 hf
    rw [set_approval_for_all_mgmt_true st c h]
    refine transfer_from_unauthorized _ c2 f t i nft hnft ?_
    rw [authorizedB_false_iff]
    rw [authorizedB_false_iff] at ha
    obtain ⟨h1, h2, h3, h4⟩ := ha
    refine ⟨h1, h2, ?_, h4⟩
    show operatorsContain
        (setOps st.operators c ((lookupOps st.operators c).getD [])) f c2
      = false
    rw [hops]
    exact h3
  · intro st c o ho h
    refine ⟨?_, ?_, ?_, ?_⟩
    · rw [set_approval_for_all_insert st c o ho h]
      show operatorsContain
          (setOps st.operators c
            (insertSet ((lookupOps st.operators c).getD []) o)) c o = true
      rw [operatorsContain_setOps_self]
      exact contains_insertSet_self _ o
    · rw [set_approval_for_all_remove st c o ho h]
      show operatorsContain
          (setOps st.operators c
            (removeSet ((lookupOps st.operators c).getD []) o)) c o = false
      rw [operatorsContain_setOps_self]
      exact contains_removeSet_self _ o
    · intro x hx
      constructor
      · rw [set_approval_for_all_insert st c o ho h]
        show operatorsContain
            (setOps st.operators c
              (insertSet ((lookupOps st.operators c).getD []) o)) c x
          = operatorsContain st.operators c x
        rw [operatorsContain_setOps_self, contains_insertSet_ne _ _ _ hx,
          getD_contains_eq]
      · rw [set_approval_for_all_remove st c o ho h]
        show operatorsContain
            (setOps st.operators c
              (removeSet ((lookupOps st.operators c).getD []) o)) c x
          = operatorsContain st.operators c x
        rw [operatorsContain_setOps_self, contains_removeSet_ne _ _ _ hx,
          getD_contains_eq]
    · intro c2 x hc2
      constructor
      · rw [set_approval_for_all_insert st c o ho h]
        show operatorsContain
            (setOps st.operators c
              (insertSet ((lookupOps st.operators c).getD []) o)) c2 x
          = operatorsContain st.operators c2 x
        exact operatorsContain_setOps_ne st.operators c c2 _ x hc2
      · rw [set_approval_for_all_remove st c o ho h]
        show operatorsContain
            (setOps st.operators c
              (removeSet ((lookupOps st.operators c).getD []) o)) c2 x
          = operatorsContain st.operators c2 x
        exact operatorsContain_setOps_ne st.operators c c2 _ x hc2

/-- Witness for C7 on the concrete registry: a sentinel-false call by 1
clears 4 from 1's operator set and leaves 2's set alone; a
sentinel-true call by 1 changes nothing and still leaves the unrelated
identity 5 unauthorized to transfer; ordinary calls add and remove 8. -/
theorem C7_witness :
    operatorsContain
        (set_approval_for_all exState 1 MGMT false).2.operators 1 4 = false
    ∧ operatorsContain
        (set_approval_for_all exState 1 MGMT false).2.operators 2 9
      = operatorsContain exState.operators 2 9
    ∧ operatorsContain
        (set_approval_for_all exState 1 MGMT true).2.operators 1 4
      = operatorsContain exState.operators 1 4
    ∧ transfer_from (set_approval_for_all exState 1 MGMT true).2 5 1 9 0
      = (Except.error Error.Unauthorized,
         (set_approval_for_all exState 1 MGMT true).2)
    ∧ operatorsContain
        (set_approval_for_all exState 1 8 true).2.operators 1 8 = true
    ∧ operatorsContain
        (set_approval_for_all exState 1 8 false).2.operators 1 8 = false :=
  ⟨(C7_set_approval_for_all.2.2.1 exState 1 (by decide)).1 4,
   (C7_set_approval_for_all.2.2.1 exState 1 (by decide)).2 2 9 (by decide),
   C7_set_approval_for_all.2.2.2.1 exState 1 1 4 (by decide),
   C7_set_approval_for_all.2.2.2.2.1 exState 1 5 1 9 0 exNft (by decide)
     (by decide) (by decide),
   (C7_set_approval_for_all.2.2.2.2.2 exState 1 8 (by decide) (by decide)).1,
   (C7_set_approval_for_all.2.2.2.2.2 exState 1 8 (by decide)
     (by decide)).2.1⟩

end NftLedger
